import Mathlib

/-!
Verification of the safety-layer wrapper (`src/src/lib.rs`) around the
native zyre/czmq peer-messaging engine.

The wrapper code in `lib.rs` is embedded faithfully: every `pub fn` of
`Zyre`, `Event` and `Message` becomes a Lean function over an explicit
native-state record.  The native engine itself (`zyre_sys`, a foreign C
library) is not part of this repository; its operations are modelled from
the spec's external-interface contract (section 6) and design notes
(section 9): handles live in explicit heaps, `*_destroy` functions are
null-safe and null their argument, `message_push` appends a frame,
`message_pop` removes the oldest frame (FIFO), `poll_next_event` returns
a fresh event handle or null, and `event_take_message` detaches the
attached message handle.  Nondeterministic engine inputs (status codes of
start/join/leave/send, the stream of incoming events) are oracles stored
in the state.  Undefined behaviour (freeing a dangling handle, decoding a
NULL C string) sets a sticky `ub` flag.
-/

namespace RustZyre

/-- Raw bytes crossing the C boundary (a Rust `&str` is its UTF-8 bytes). -/
abbrev Bytes := List Nat

/-- Mirrors the `Error` enum of `lib.rs` (payloads of the two conversion
errors are not inspected by any claim and are omitted). -/
inductive Error where
  | ToCString
  | FromCStr
  | StartFailed
  | JoinFailed
  | LeaveFailed
  | ReadInterrupted
deriving DecidableEq

/-- `CStr::from_ptr` reads bytes up to the first NUL terminator. -/
def takeUntilNul (b : Bytes) : Bytes :=
  b.takeWhile (fun x => decide (x ≠ 0))

/-- Is `b` a UTF-8 continuation byte (`0x80..0xBF`)? -/
def utf8Cont (b : Nat) : Bool :=
  decide (0x80 ≤ b) && decide (b ≤ 0xBF)

/-- UTF-8 well-formedness of a byte sequence, following the table used by
Rust's `str::from_utf8` (overlongs and surrogates rejected). -/
def utf8Valid : List Nat → Bool
  | [] => true
  | b :: rest =>
    if b ≤ 0x7F then utf8Valid rest
    else if 0xC2 ≤ b && b ≤ 0xDF then
      match rest with
      | c :: rest2 => utf8Cont c && utf8Valid rest2
      | [] => false
    else if b == 0xE0 then
      match rest with
      | c :: d :: rest2 =>
          decide (0xA0 ≤ c) && decide (c ≤ 0xBF) && utf8Cont d && utf8Valid rest2
      | _ => false
    else if (0xE1 ≤ b && b ≤ 0xEC) || b == 0xEE || b == 0xEF then
      match rest with
      | c :: d :: rest2 => utf8Cont c && utf8Cont d && utf8Valid rest2
      | _ => false
    else if b == 0xED then
      match rest with
      | c :: d :: rest2 =>
          decide (0x80 ≤ c) && decide (c ≤ 0x9F) && utf8Cont d && utf8Valid rest2
      | _ => false
    else if b == 0xF0 then
      match rest with
      | c :: d :: e :: rest2 =>
          decide (0x90 ≤ c) && decide (c ≤ 0xBF) && utf8Cont d && utf8Cont e &&
            utf8Valid rest2
      | _ => false
    else if 0xF1 ≤ b && b ≤ 0xF3 then
      match rest with
      | c :: d :: e :: rest2 =>
          utf8Cont c && utf8Cont d && utf8Cont e && utf8Valid rest2
      | _ => false
    else if b == 0xF4 then
      match rest with
      | c :: d :: e :: rest2 =>
          decide (0x80 ≤ c) && decide (c ≤ 0x8F) && utf8Cont d && utf8Cont e &&
            utf8Valid rest2
      | _ => false
    else false

/-- `CString::new`: fails with `NulError` iff the bytes contain a 0 byte;
`as_ptr` then exposes exactly these bytes, NUL-terminated. -/
def cstringNew (b : Bytes) : Except Error Bytes :=
  if 0 ∈ b then Except.error Error.ToCString else Except.ok b

/-- `<&CStr>::to_str`: UTF-8 validation of the bytes read from C. -/
def cstrToStr (b : Bytes) : Except Error Bytes :=
  if utf8Valid b then Except.ok b else Except.error Error.FromCStr

/-- One native event snapshot as produced by the engine (oracle entry of
the pending-event stream). -/
structure EventSpec where
  etype : Bytes
  peerUuid : Bytes
  peerName : Bytes
  peerAddr : Bytes
  group : Option Bytes
  msgFrames : Option (List Bytes)
deriving DecidableEq

/-- A live native event object: the snapshot fields plus the handle of the
attached message, if any (cleared when the message is taken). -/
structure EventObj where
  etype : Bytes
  peerUuid : Bytes
  peerName : Bytes
  peerAddr : Bytes
  group : Option Bytes
  msg : Option Nat
deriving DecidableEq

/-- A live native node object. -/
structure NodeObj where
  name : Option Bytes
deriving DecidableEq

/-- Log entries for the engine calls that forward caller-supplied text
(used to state that validation happens before the native call). -/
inductive CallRec where
  | newCall (name : Option Bytes)
  | joinCall (group : Bytes)
  | leaveCall (group : Bytes)
  | whisperCall (peer : Bytes) (msgPtr : Nat)
  | shoutCall (group : Bytes) (msgPtr : Nat)
  | pushCall (msgPtr : Nat) (frame : Bytes)
deriving DecidableEq

/-- The state of the native engine.  Handles are `Nat`s, `0` is NULL.
`releases` logs every actual free of a handle (newest first); `calls`
logs the text-forwarding engine calls; `rcs` is the oracle of status
codes returned by start/join/leave/whisper/shout; `pending` is the oracle
of poll results (`none` = interrupted / null). -/
structure NativeState where
  next : Nat
  msgHeap : List (Nat × List Bytes)
  eventHeap : List (Nat × EventObj)
  nodeHeap : List (Nat × NodeObj)
  releases : List Nat
  calls : List CallRec
  rcs : List Int
  pending : List (Option EventSpec)
  ub : Bool
deriving DecidableEq

/-- Lookup in a handle heap. -/
def assocFind {α : Type} : List (Nat × α) → Nat → Option α
  | [], _ => none
  | (k, v) :: rest, p => if k = p then some v else assocFind rest p

/-- Replace the value under a key (first binding; no-op when absent). -/
def assocSet {α : Type} : List (Nat × α) → Nat → α → List (Nat × α)
  | [], _, _ => []
  | (k, v) :: rest, p, w =>
      if k = p then (k, w) :: rest else (k, v) :: assocSet rest p w

/-- Remove a key from a handle heap. -/
def assocErase {α : Type} : List (Nat × α) → Nat → List (Nat × α)
  | [], _ => []
  | (k, v) :: rest, p =>
      if k = p then assocErase rest p else (k, v) :: assocErase rest p

/-- Pop the next status code from the engine's status-code oracle
(`0` once the oracle is exhausted). -/
def takeRc (st : NativeState) : NativeState × Int :=
  match st.rcs with
  | [] => (st, 0)
  | rc :: rest => ({ st with rcs := rest }, rc)

/-- Decoding a C string pointer: a NULL pointer is undefined behaviour
(`CStr::from_ptr` has a non-null precondition); a non-null pointer yields
the bytes up to the terminator. -/
def cstrFromPtr (st : NativeState) : Option Bytes → NativeState × Bytes
  | none => ({ st with ub := true }, [])
  | some b => (st, takeUntilNul b)

/-- Modelled from the spec: `new_message() -> message_handle` allocates an
empty native frame list under a fresh non-null handle. -/
def zmsg_new (st : NativeState) : NativeState × Nat :=
  let p := st.next + 1
  ({ st with next := p, msgHeap := (p, ([] : List Bytes)) :: st.msgHeap }, p)

/-- Modelled from the spec: `destroy_message` is null-safe, frees the
object exactly once and nulls the caller's handle (spec section 9:
"destroy checks presence before releasing and unconditionally marks
absent").  Freeing a dangling non-null handle is undefined behaviour. -/
def zmsg_destroy (st : NativeState) (p : Nat) : NativeState × Nat :=
  if p = 0 then (st, 0)
  else
    match assocFind st.msgHeap p with
    | some _ =>
        ({ st with msgHeap := assocErase st.msgHeap p,
                   releases := p :: st.releases }, 0)
    | none => ({ st with ub := true }, 0)

/-- Modelled from the spec: `message_size(handle) -> count` is the current
frame count. -/
def zmsg_size (st : NativeState) (p : Nat) : Nat :=
  match assocFind st.msgHeap p with
  | some fs => fs.length
  | none => 0

/-- Modelled from the spec: `message_push` appends one frame (spec
section 3: "push (append one frame)"); the call is logged. -/
def zmsg_pushstr (st : NativeState) (p : Nat) (b : Bytes) : NativeState :=
  match assocFind st.msgHeap p with
  | some fs =>
      { st with msgHeap := assocSet st.msgHeap p (fs ++ [b]),
                calls := CallRec.pushCall p b :: st.calls }
  | none => { st with ub := true }

/-- Modelled from the spec: `message_pop` removes and returns the oldest
remaining frame (FIFO), returning NULL on an empty buffer. -/
def zmsg_popstr (st : NativeState) (p : Nat) : NativeState × Option Bytes :=
  match assocFind st.msgHeap p with
  | none => ({ st with ub := true }, none)
  | some [] => (st, none)
  | some (f :: rest) =>
      ({ st with msgHeap := assocSet st.msgHeap p rest }, some f)

/-- The `Message` wrapper struct: one raw handle field. -/
structure Message where
  sys : Nat
deriving DecidableEq

/-- `Message::new`. -/
def Message.new (st : NativeState) : NativeState × Message :=
  ((zmsg_new st).1, ⟨(zmsg_new st).2⟩)

/-- `Message::from_ptr`. -/
def Message.from_ptr (p : Nat) : Message := ⟨p⟩

/-- `Message::destroy`: `zmsg_destroy(&mut self.sys)` — the engine nulls
the stored handle. -/
def Message.destroy (st : NativeState) (m : Message) : NativeState × Message :=
  ((zmsg_destroy st m.sys).1, ⟨(zmsg_destroy st m.sys).2⟩)

/-- `Message::unwrap`: takes the handle out, leaving the struct nulled. -/
def Message.unwrap (m : Message) : Message × Nat :=
  (⟨0⟩, m.sys)

/-- `Message::size`. -/
def Message.size (st : NativeState) (m : Message) : Nat :=
  zmsg_size st m.sys

/-- `Message::push`: validates the frame as a C string, then forwards it. -/
def Message.push (st : NativeState) (m : Message) (frame : Bytes) :
    NativeState × Except Error Unit :=
  match cstringNew frame with
  | Except.error e => (st, Except.error e)
  | Except.ok b => (zmsg_pushstr st m.sys b, Except.ok ())

/-- `Message::pop`: `CStr::from_ptr(zmsg_popstr(self.sys)).to_str()?` —
no null check between the pop and the decode. -/
def Message.pop (st : NativeState) (m : Message) :
    NativeState × Except Error Bytes :=
  let pr := zmsg_popstr st m.sys
  let dr := cstrFromPtr pr.1 pr.2
  (dr.1, cstrToStr dr.2)

/-- The loop of `Message::collect`: the iteration count was snapshotted
from `size()` before the first pop. -/
def collectLoop (p : Nat) : NativeState → Nat → NativeState × Except Error (List Bytes)
  | st, 0 => (st, Except.ok [])
  | st, n + 1 =>
    let pr := zmsg_popstr st p
    let dr := cstrFromPtr pr.1 pr.2
    match cstrToStr dr.2 with
    | Except.error e => (dr.1, Except.error e)
    | Except.ok s =>
      let rec1 := collectLoop p dr.1 n
      match rec1.2 with
      | Except.ok tl => (rec1.1, Except.ok (s :: tl))
      | Except.error e => (rec1.1, Except.error e)

/-- `Message::collect`: pops `size()`-many frames, failing on the first
frame that does not decode. -/
def Message.collect (st : NativeState) (m : Message) :
    NativeState × Except Error (List Bytes) :=
  collectLoop m.sys st (zmsg_size st m.sys)

/-- The loop of `Message::from_frames`; on a push failure the local
message is dropped (destroyed) before the error propagates. -/
def fromFramesLoop (m : Message) : NativeState → List Bytes →
    NativeState × Except Error Message
  | st, [] => (st, Except.ok m)
  | st, f :: rest =>
    let pr := Message.push st m f
    match pr.2 with
    | Except.error e => ((zmsg_destroy pr.1 m.sys).1, Except.error e)
    | Except.ok _ => fromFramesLoop m pr.1 rest

/-- `Message::from_frames`: creates an empty message and pushes each frame
in order. -/
def Message.from_frames (st : NativeState) (frames : List Bytes) :
    NativeState × Except Error Message :=
  fromFramesLoop (Message.new st).2 (Message.new st).1 frames

/-- Modelled from the spec: `destroy_event` is null-safe and one-shot like
`destroy_message`; a still-attached message is released with the event. -/
def zyre_event_destroy (st : NativeState) (p : Nat) : NativeState × Nat :=
  if p = 0 then (st, 0)
  else
    match assocFind st.eventHeap p with
    | some ev =>
        let st1 :=
          match ev.msg with
          | some mp => (zmsg_destroy st mp).1
          | none => st
        ({ st1 with eventHeap := assocErase st1.eventHeap p,
                    releases := p :: st1.releases }, 0)
    | none => ({ st with ub := true }, 0)

/-- Modelled from the spec: `poll_next_event(handle) -> event_handle_or_null`
pops the next oracle entry; `none` (interruption) yields NULL, otherwise a
fresh event object is allocated — together with a fresh message object when
the event carries frames. -/
def zyre_event_new (st : NativeState) (_node : Nat) : NativeState × Nat :=
  match st.pending with
  | [] => (st, 0)
  | none :: rest => ({ st with pending := rest }, 0)
  | some es :: rest =>
    match es.msgFrames with
    | none =>
      let p := st.next + 1
      ({ st with next := p, pending := rest,
                 eventHeap :=
                   (p, ⟨es.etype, es.peerUuid, es.peerName, es.peerAddr,
                        es.group, none⟩) :: st.eventHeap }, p)
    | some fs =>
      let mp := st.next + 1
      let p := st.next + 2
      ({ st with next := p, pending := rest,
                 msgHeap := (mp, fs) :: st.msgHeap,
                 eventHeap :=
                   (p, ⟨es.etype, es.peerUuid, es.peerName, es.peerAddr,
                        es.group, some mp⟩) :: st.eventHeap }, p)

/-- Modelled from the spec: `event_field_*` reads return the stored bytes,
or NULL when the field is absent. -/
def zyre_event_group (st : NativeState) (p : Nat) : NativeState × Option Bytes :=
  match assocFind st.eventHeap p with
  | none => ({ st with ub := true }, none)
  | some ev => (st, ev.group)

/-- Modelled from the spec: `event_take_message` detaches the attached
message handle from the event (NULL when absent or already taken), so the
caller obtains sole ownership. -/
def zyre_event_get_msg (st : NativeState) (p : Nat) : NativeState × Nat :=
  match assocFind st.eventHeap p with
  | none => ({ st with ub := true }, 0)
  | some ev =>
    match ev.msg with
    | none => (st, 0)
    | some mp =>
        let ev2 : EventObj :=
          ⟨ev.etype, ev.peerUuid, ev.peerName, ev.peerAddr, ev.group, none⟩
        ({ st with eventHeap := assocSet st.eventHeap p ev2 }, mp)

/-- The `Event` wrapper struct: one raw handle field. -/
structure Event where
  sys : Nat
deriving DecidableEq

/-- `Event::new` (private constructor). -/
def Event.new (p : Nat) : Event := ⟨p⟩

/-- `Event::destroy`: `zyre_event_destroy(&mut self.sys)`. -/
def Event.destroy (st : NativeState) (e : Event) : NativeState × Event :=
  ((zyre_event_destroy st e.sys).1, ⟨(zyre_event_destroy st e.sys).2⟩)

/-- `Event::group`: `CStr::from_ptr(zyre_event_group(self.sys)).to_str()?`
— no null check on the field pointer. -/
def Event.group (st : NativeState) (e : Event) :
    NativeState × Except Error Bytes :=
  let pr := zyre_event_group st e.sys
  let dr := cstrFromPtr pr.1 pr.2
  (dr.1, cstrToStr dr.2)

/-- `Event::message`: `Message::from_ptr(zyre_event_get_msg(self.sys))`. -/
def Event.message (st : NativeState) (e : Event) : NativeState × Message :=
  ((zyre_event_get_msg st e.sys).1,
   Message.from_ptr (zyre_event_get_msg st e.sys).2)

/-- Modelled from the spec: `create_node(name_or_null) -> handle` always
yields a fresh handle (no failure return); the call is logged with the
exact name bytes forwarded. -/
def zyre_new_native (st : NativeState) (name : Option Bytes) : NativeState × Nat :=
  let p := st.next + 1
  ({ st with next := p, nodeHeap := (p, ⟨name⟩) :: st.nodeHeap,
             calls := CallRec.newCall name :: st.calls }, p)

/-- Modelled from the spec: `destroy_node` is null-safe and one-shot. -/
def zyre_destroy (st : NativeState) (p : Nat) : NativeState × Nat :=
  if p = 0 then (st, 0)
  else
    match assocFind st.nodeHeap p with
    | some _ =>
        ({ st with nodeHeap := assocErase st.nodeHeap p,
                   releases := p :: st.releases }, 0)
    | none => ({ st with ub := true }, 0)

/-- Modelled from the spec: `start_node(handle) -> status_code` — the code
comes from the engine oracle. -/
def zyre_start_native (st : NativeState) (_node : Nat) : NativeState × Int :=
  takeRc st

/-- Modelled from the spec: `stop_node(handle)` — no status returned. -/
def zyre_stop_native (st : NativeState) (_node : Nat) : NativeState :=
  st

/-- Modelled from the spec: `join_group(handle, name) -> status_code`;
the forwarded group bytes are logged. -/
def zyre_join_native (st : NativeState) (_node : Nat) (group : Bytes) :
    NativeState × Int :=
  takeRc { st with calls := CallRec.joinCall group :: st.calls }

/-- Modelled from the spec: `leave_group(handle, name) -> status_code`. -/
def zyre_leave_native (st : NativeState) (_node : Nat) (group : Bytes) :
    NativeState × Int :=
  takeRc { st with calls := CallRec.leaveCall group :: st.calls }

/-- Modelled from the spec: `send_unicast(handle, peer, message_handle)`
takes ownership of the message handle (the engine releases it after the
send); the send call and the release are logged.  The status code it
returns is taken from the oracle. -/
def zyre_whisper_native (st : NativeState) (_node : Nat) (peer : Bytes)
    (mp : Nat) : NativeState × Int :=
  match assocFind st.msgHeap mp with
  | none => takeRc { st with ub := true }
  | some _ =>
      takeRc { st with msgHeap := assocErase st.msgHeap mp,
                       releases := mp :: st.releases,
                       calls := CallRec.whisperCall peer mp :: st.calls }

/-- Modelled from the spec: `send_multicast(handle, group, message_handle)`
with the same ownership contract as `send_unicast`. -/
def zyre_shout_native (st : NativeState) (_node : Nat) (group : Bytes)
    (mp : Nat) : NativeState × Int :=
  match assocFind st.msgHeap mp with
  | none => takeRc { st with ub := true }
  | some _ =>
      takeRc { st with msgHeap := assocErase st.msgHeap mp,
                       releases := mp :: st.releases,
                       calls := CallRec.shoutCall group mp :: st.calls }

/-- The `Zyre` wrapper struct: one raw handle field. -/
structure Zyre where
  sys : Nat
deriving DecidableEq

/-- `Zyre::new`: validates a supplied name before the native call; a
missing name forwards NULL. -/
def Zyre.new (st : NativeState) (name : Option Bytes) :
    NativeState × Except Error Zyre :=
  match name with
  | some value =>
    match cstringNew value with
    | Except.error e => (st, Except.error e)
    | Except.ok b =>
        ((zyre_new_native st (some b)).1, Except.ok ⟨(zyre_new_native st (some b)).2⟩)
  | none =>
      ((zyre_new_native st none).1, Except.ok ⟨(zyre_new_native st none).2⟩)

/-- `Zyre::destroy`: `zyre_destroy(&mut self.sys)`. -/
def Zyre.destroy (st : NativeState) (z : Zyre) : NativeState × Zyre :=
  ((zyre_destroy st z.sys).1, ⟨(zyre_destroy st z.sys).2⟩)

/-- `Zyre::start`: non-zero status code becomes `StartFailed`. -/
def Zyre.start (st : NativeState) (z : Zyre) :
    NativeState × Except Error Unit :=
  let pr := zyre_start_native st z.sys
  if pr.2 ≠ 0 then (pr.1, Except.error Error.StartFailed)
  else (pr.1, Except.ok ())

/-- `Zyre::stop`. -/
def Zyre.stop (st : NativeState) (z : Zyre) : NativeState :=
  zyre_stop_native st z.sys

/-- `Zyre::join`: validates the group name, then maps a non-zero status
code to `JoinFailed`. -/
def Zyre.join (st : NativeState) (z : Zyre) (group : Bytes) :
    NativeState × Except Error Unit :=
  match cstringNew group with
  | Except.error e => (st, Except.error e)
  | Except.ok b =>
      let pr := zyre_join_native st z.sys b
      if pr.2 ≠ 0 then (pr.1, Except.error Error.JoinFailed)
      else (pr.1, Except.ok ())

/-- `Zyre::leave`: symmetric to `join`, with `LeaveFailed`. -/
def Zyre.leave (st : NativeState) (z : Zyre) (group : Bytes) :
    NativeState × Except Error Unit :=
  match cstringNew group with
  | Except.error e => (st, Except.error e)
  | Except.ok b =>
      let pr := zyre_leave_native st z.sys b
      if pr.2 ≠ 0 then (pr.1, Except.error Error.LeaveFailed)
      else (pr.1, Except.ok ())

/-- `Zyre::read_event`: a NULL poll result becomes `ReadInterrupted`. -/
def Zyre.read_event (st : NativeState) (z : Zyre) :
    NativeState × Except Error Event :=
  let pr := zyre_event_new st z.sys
  if pr.2 = 0 then (pr.1, Except.error Error.ReadInterrupted)
  else (pr.1, Except.ok (Event.new pr.2))

/-- `Zyre::whisper`: takes `msg` by value.  Arguments evaluate left to
right: if the peer fails validation the error propagates and the dropped
`msg` is destroyed still owning its handle; otherwise `msg.unwrap()`
transfers the handle into the send call, the send status is discarded,
and the drop of the nulled `msg` is a no-op. -/
def Zyre.whisper (st : NativeState) (z : Zyre) (peer : Bytes)
    (msg : Message) : NativeState × Except Error Unit :=
  match cstringNew peer with
  | Except.error e => ((zmsg_destroy st msg.sys).1, Except.error e)
  | Except.ok b =>
      let st1 := (zyre_whisper_native st z.sys b msg.unwrap.2).1
      ((zmsg_destroy st1 msg.unwrap.1.sys).1, Except.ok ())

/-- `Zyre::shout`: identical shape to `whisper` over a group. -/
def Zyre.shout (st : NativeState) (z : Zyre) (group : Bytes)
    (msg : Message) : NativeState × Except Error Unit :=
  match cstringNew group with
  | Except.error e => ((zmsg_destroy st msg.sys).1, Except.error e)
  | Except.ok b =>
      let st1 := (zyre_shout_native st z.sys b msg.unwrap.2).1
      ((zmsg_destroy st1 msg.unwrap.1.sys).1, Except.ok ())

/-- Iterated `Message::destroy` (for the idempotence claims). -/
def destroyMsgN : Nat → NativeState × Message → NativeState × Message
  | 0, s => s
  | n + 1, s => destroyMsgN n (Message.destroy s.1 s.2)

/-- Iterated `Event::destroy`. -/
def destroyEventN : Nat → NativeState × Event → NativeState × Event
  | 0, s => s
  | n + 1, s => destroyEventN n (Event.destroy s.1 s.2)

/-- Iterated `Zyre::destroy`. -/
def destroyZyreN : Nat → NativeState × Zyre → NativeState × Zyre
  | 0, s => s
  | n + 1, s => destroyZyreN n (Zyre.destroy s.1 s.2)

theorem assocFind_assocSet {α : Type} (l : List (Nat × α)) (p : Nat) (v w : α)
    (h : assocFind l p = some w) : assocFind (assocSet l p v) p = some v := by
  induction l with
  | nil => simp [assocFind] at h
  | cons hd tl ih =>
    obtain ⟨k, x⟩ := hd
    by_cases hk : k = p
    · simp [assocFind, assocSet, hk]
    · simp [assocFind, assocSet, hk] at h ⊢
      exact ih h

theorem assocSet_assocSet {α : Type} (l : List (Nat × α)) (p : Nat) (v w : α) :
    assocSet (assocSet l p v) p w = assocSet l p w := by
  induction l with
  | nil => simp [assocSet]
  | cons hd tl ih =>
    obtain ⟨k, x⟩ := hd
    by_cases hk : k = p
    · simp [assocSet, hk]
    · simp [assocSet, hk, ih]

theorem assocSet_eq_self {α : Type} (l : List (Nat × α)) (p : Nat) (v : α)
    (h : assocFind l p = some v) : assocSet l p v = l := by
  induction l with
  | nil => simp [assocSet]
  | cons hd tl ih =>
    obtain ⟨k, x⟩ := hd
    by_cases hk : k = p
    · subst hk
      simp [assocFind] at h
      simp [assocSet, h]
    · simp [assocFind, hk] at h
      simp [assocSet, hk, ih h]

theorem assocFind_assocErase {α : Type} (l : List (Nat × α)) (p : Nat) :
    assocFind (assocErase l p) p = none := by
  induction l with
  | nil => rfl
  | cons hd tl ih =>
    obtain ⟨k, x⟩ := hd
    by_cases hk : k = p
    · simp [assocErase, hk, ih]
    · simp [assocErase, assocFind, hk, ih]

theorem takeUntilNul_eq_self (b : Bytes) (h : 0 ∉ b) : takeUntilNul b = b := by
  induction b with
  | nil => rfl
  | cons x xs ih =>
    simp only [List.mem_cons, not_or] at h
    have hx : x ≠ 0 := fun hh => h.1 hh.symm
    have htl : takeUntilNul xs = xs := ih h.2
    unfold takeUntilNul at htl ⊢
    simp [List.takeWhile_cons, hx, htl]
    exact fun y hy hy0 => h.2 (hy0 ▸ hy)

theorem zmsg_destroy_zero (st : NativeState) : zmsg_destroy st 0 = (st, 0) := by
  simp [zmsg_destroy]

theorem zmsg_destroy_snd (st : NativeState) (p : Nat) :
    (zmsg_destroy st p).2 = 0 := by
  unfold zmsg_destroy
  split
  · rfl
  · split <;> rfl

theorem msgDestroy_snd (st : NativeState) (m : Message) :
    (Message.destroy st m).2 = (⟨0⟩ : Message) := by
  simp [Message.destroy, zmsg_destroy_snd]

theorem msgDestroy_null (st : NativeState) :
    Message.destroy st (⟨0⟩ : Message) = (st, (⟨0⟩ : Message)) := by
  simp [Message.destroy, zmsg_destroy]

theorem zyre_event_destroy_snd (st : NativeState) (p : Nat) :
    (zyre_event_destroy st p).2 = 0 := by
  unfold zyre_event_destroy
  split
  · rfl
  · split <;> rfl

theorem evDestroy_snd (st : NativeState) (e : Event) :
    (Event.destroy st e).2 = (⟨0⟩ : Event) := by
  simp [Event.destroy, zyre_event_destroy_snd]

theorem evDestroy_null (st : NativeState) :
    Event.destroy st (⟨0⟩ : Event) = (st, (⟨0⟩ : Event)) := by
  simp [Event.destroy, zyre_event_destroy]

theorem zyre_destroy_snd (st : NativeState) (p : Nat) :
    (zyre_destroy st p).2 = 0 := by
  unfold zyre_destroy
  split
  · rfl
  · split <;> rfl

theorem zyDestroy_snd (st : NativeState) (z : Zyre) :
    (Zyre.destroy st z).2 = (⟨0⟩ : Zyre) := by
  simp [Zyre.destroy, zyre_destroy_snd]

theorem zyDestroy_null (st : NativeState) :
    Zyre.destroy st (⟨0⟩ : Zyre) = (st, (⟨0⟩ : Zyre)) := by
  simp [Zyre.destroy, zyre_destroy]

theorem destroyMsgN_null (n : Nat) (s : NativeState × Message)
    (h : s.2.sys = 0) : destroyMsgN n s = s := by
  induction n generalizing s with
  | zero => rfl
  | succ k ih =>
    obtain ⟨st, m⟩ := s
    obtain ⟨p⟩ := m
    simp at h
    subst h
    show destroyMsgN k (Message.destroy st ⟨0⟩) = (st, ⟨0⟩)
    rw [msgDestroy_null]
    exact ih (st, ⟨0⟩) rfl

theorem destroyEventN_null (n : Nat) (s : NativeState × Event)
    (h : s.2.sys = 0) : destroyEventN n s = s := by
  induction n generalizing s with
  | zero => rfl
  | succ k ih =>
    obtain ⟨st, e⟩ := s
    obtain ⟨p⟩ := e
    simp at h
    subst h
    show destroyEventN k (Event.destroy st ⟨0⟩) = (st, ⟨0⟩)
    rw [evDestroy_null]
    exact ih (st, ⟨0⟩) rfl

theorem destroyZyreN_null (n : Nat) (s : NativeState × Zyre)
    (h : s.2.sys = 0) : destroyZyreN n s = s := by
  induction n generalizing s with
  | zero => rfl
  | succ k ih =>
    obtain ⟨st, z⟩ := s
    obtain ⟨p⟩ := z
    simp at h
    subst h
    show destroyZyreN k (Zyre.destroy st ⟨0⟩) = (st, ⟨0⟩)
    rw [zyDestroy_null]
    exact ih (st, ⟨0⟩) rfl

theorem destroyMsgN_succ (k : Nat) (st : NativeState) (m : Message) :
    destroyMsgN (k + 1) (st, m) = Message.destroy st m := by
  show destroyMsgN k (Message.destroy st m) = Message.destroy st m
  exact destroyMsgN_null k (Message.destroy st m)
    (by rw [msgDestroy_snd])

theorem destroyEventN_succ (k : Nat) (st : NativeState) (e : Event) :
    destroyEventN (k + 1) (st, e) = Event.destroy st e := by
  show destroyEventN k (Event.destroy st e) = Event.destroy st e
  exact destroyEventN_null k (Event.destroy st e)
    (by rw [evDestroy_snd])

theorem destroyZyreN_succ (k : Nat) (st : NativeState) (z : Zyre) :
    destroyZyreN (k + 1) (st, z) = Zyre.destroy st z := by
  show destroyZyreN k (Zyre.destroy st z) = Zyre.destroy st z
  exact destroyZyreN_null k (Zyre.destroy st z)
    (by rw [zyDestroy_snd])

theorem Message.destroy_releases_le (st : NativeState) (m : Message) :
    (Message.destroy st m).1.releases.count m.sys ≤
      st.releases.count m.sys + 1 := by
  unfold Message.destroy zmsg_destroy
  split
  · exact Nat.le_succ _
  · split
    · simp [List.count_cons]
    · exact Nat.le_succ _

@[simp]
theorem takeRc_fst_msgHeap (st : NativeState) : (takeRc st).1.msgHeap = st.msgHeap := by
  unfold takeRc
  split <;> rfl

@[simp]
theorem takeRc_fst_eventHeap (st : NativeState) : (takeRc st).1.eventHeap = st.eventHeap := by
  unfold takeRc
  split <;> rfl

@[simp]
theorem takeRc_fst_releases (st : NativeState) : (takeRc st).1.releases = st.releases := by
  unfold takeRc
  split <;> rfl

@[simp]
theorem takeRc_fst_calls (st : NativeState) : (takeRc st).1.calls = st.calls := by
  unfold takeRc
  split <;> rfl

@[simp]
theorem takeRc_fst_ub (st : NativeState) : (takeRc st).1.ub = st.ub := by
  unfold takeRc
  split <;> rfl

/-- C3: for `Zyre`, `Event` and `Message`, calling `destroy` any `N ≥ 1`
times produces exactly the same native state and wrapper struct as calling
it once — in particular the handle is never released a second time. -/
theorem destroy_idempotent (st : NativeState) (m : Message) (e : Event)
    (z : Zyre) (n : Nat) (hn : 1 ≤ n) :
    destroyMsgN n (st, m) = Message.destroy st m ∧
    destroyEventN n (st, e) = Event.destroy st e ∧
    destroyZyreN n (st, z) = Zyre.destroy st z ∧
    (destroyMsgN n (st, m)).1.releases.count m.sys ≤
      st.releases.count m.sys + 1 := by
  obtain ⟨k, rfl⟩ : ∃ k, n = k + 1 :=
    ⟨n - 1, (Nat.succ_pred_eq_of_pos hn).symm⟩
  refine ⟨destroyMsgN_succ k st m, destroyEventN_succ k st e,
    destroyZyreN_succ k st z, ?_⟩
  rw [destroyMsgN_succ]
  exact Message.destroy_releases_le st m

/-- Concrete instantiation of `destroy_idempotent`: a state holding one
live message handle `1`, one live event handle `2` and one live node
handle `3`, each destroyed three times. -/
theorem destroy_idempotent_witness :
    (1 ≤ 3) ∧
    (destroyMsgN 3 (⟨3, [(1, [[97]])], [(2, ⟨[], [], [], [], none, none⟩)],
        [(3, ⟨none⟩)], [], [], [], [], false⟩, ⟨1⟩) =
      Message.destroy ⟨3, [(1, [[97]])], [(2, ⟨[], [], [], [], none, none⟩)],
        [(3, ⟨none⟩)], [], [], [], [], false⟩ ⟨1⟩) := by
  constructor
  · decide
  · exact (destroy_idempotent
      ⟨3, [(1, [[97]])], [(2, ⟨[], [], [], [], none, none⟩)],
        [(3, ⟨none⟩)], [], [], [], [], false⟩ ⟨1⟩ ⟨2⟩ ⟨3⟩ 3 (by decide)).1

/-- C2: passing a live `Message` into `whisper` (resp. `shout`) with a
valid peer (resp. group) transfers its handle into the native send call:
the call returns success, the handle is consumed by the engine (gone from
the heap, released exactly once across the whole call), and the nulled
wrapper left behind by `unwrap` — the value whose drop runs afterwards —
destroys as a no-op. -/
theorem whisper_shout_transfer :
    (∀ (st : NativeState) (z : Zyre) (peer : Bytes) (m : Message)
        (fs : List Bytes), 0 ∉ peer → assocFind st.msgHeap m.sys = some fs →
      (Zyre.whisper st z peer m).2 = Except.ok () ∧
      (Zyre.whisper st z peer m).1.calls.head? =
        some (CallRec.whisperCall peer m.sys) ∧
      assocFind (Zyre.whisper st z peer m).1.msgHeap m.sys = none ∧
      (Zyre.whisper st z peer m).1.releases.count m.sys =
        st.releases.count m.sys + 1) ∧
    (∀ (st : NativeState) (z : Zyre) (group : Bytes) (m : Message)
        (fs : List Bytes), 0 ∉ group → assocFind st.msgHeap m.sys = some fs →
      (Zyre.shout st z group m).2 = Except.ok () ∧
      (Zyre.shout st z group m).1.calls.head? =
        some (CallRec.shoutCall group m.sys) ∧
      assocFind (Zyre.shout st z group m).1.msgHeap m.sys = none ∧
      (Zyre.shout st z group m).1.releases.count m.sys =
        st.releases.count m.sys + 1) ∧
    (∀ (st : NativeState), Message.destroy st (⟨0⟩ : Message) =
      (st, (⟨0⟩ : Message))) := by
  refine ⟨?_, ?_, msgDestroy_null⟩
  · intro st z peer m fs hp hm
    simp [Zyre.whisper, cstringNew, hp, Message.unwrap, zyre_whisper_native,
      hm, zmsg_destroy_zero, assocFind_assocErase, List.count_cons]
  · intro st z group m fs hg hm
    simp [Zyre.shout, cstringNew, hg, Message.unwrap, zyre_shout_native,
      hm, zmsg_destroy_zero, assocFind_assocErase, List.count_cons]

/-- Concrete instantiation of `whisper_shout_transfer`: message handle `1`
holding one frame, whispered to peer `"p"` and shouted to group `"g"`. -/
theorem whisper_shout_transfer_witness :
    ((0 : Nat) ∉ ([112] : Bytes)) ∧
    (Zyre.whisper ⟨3, [(1, [[97]])], [], [], [], [], [], [], false⟩
        ⟨2⟩ [112] ⟨1⟩).2 = Except.ok () ∧
    (Zyre.shout ⟨3, [(1, [[97]])], [], [], [], [], [], [], false⟩
        ⟨2⟩ [103] ⟨1⟩).2 = Except.ok () := by
  refine ⟨by decide, ?_, ?_⟩
  · exact (whisper_shout_transfer.1
      ⟨3, [(1, [[97]])], [], [], [], [], [], [], false⟩ ⟨2⟩ [112] ⟨1⟩ [[97]]
      (by decide) (by decide)).1
  · exact (whisper_shout_transfer.2.1
      ⟨3, [(1, [[97]])], [], [], [], [], [], [], false⟩ ⟨2⟩ [103] ⟨1⟩ [[97]]
      (by decide) (by decide)).1

/-- C9: with a NUL-free peer (resp. group), `whisper` (resp. `shout`)
returns success for every state and every message — the status code of
the native send is discarded, so no send-level failure reaches the
caller. -/
theorem whisper_shout_always_ok :
    (∀ (st : NativeState) (z : Zyre) (peer : Bytes) (m : Message),
      0 ∉ peer → (Zyre.whisper st z peer m).2 = Except.ok ()) ∧
    (∀ (st : NativeState) (z : Zyre) (group : Bytes) (m : Message),
      0 ∉ group → (Zyre.shout st z group m).2 = Except.ok ()) := by
  constructor
  · intro st z peer m hp
    simp [Zyre.whisper, cstringNew, hp]
  · intro st z group m hg
    simp [Zyre.shout, cstringNew, hg]

/-- Concrete instantiation of `whisper_shout_always_ok`: even with a
status-code oracle forcing the send to report failure (`[-1]`), the call
returns success. -/
theorem whisper_shout_always_ok_witness :
    ((0 : Nat) ∉ ([112] : Bytes)) ∧
    (Zyre.whisper ⟨3, [(1, [[97]])], [], [], [], [], [-1], [], false⟩
        ⟨2⟩ [112] ⟨1⟩).2 = Except.ok () ∧
    (Zyre.shout ⟨3, [(1, [[97]])], [], [], [], [], [-1], [], false⟩
        ⟨2⟩ [103] ⟨1⟩).2 = Except.ok () := by
  refine ⟨by decide, ?_, ?_⟩
  · exact whisper_shout_always_ok.1
      ⟨3, [(1, [[97]])], [], [], [], [], [-1], [], false⟩ ⟨2⟩ [112] ⟨1⟩
      (by decide)
  · exact whisper_shout_always_ok.2
      ⟨3, [(1, [[97]])], [], [], [], [], [-1], [], false⟩ ⟨2⟩ [103] ⟨1⟩
      (by decide)

/-- C6: with the engine's next status code being `rc`, `start` fails with
`StartFailed` iff `rc ≠ 0`, and (for a NUL-free group name) `join` /
`leave` fail with `JoinFailed` / `LeaveFailed` iff `rc ≠ 0`; on `rc = 0`
each returns success. -/
theorem start_join_leave_status (st : NativeState) (z : Zyre) (rc : Int)
    (rest : List Int) (group : Bytes) (hrc : st.rcs = rc :: rest)
    (hg : 0 ∉ group) :
    ((Zyre.start st z).2 = Except.error Error.StartFailed ↔ rc ≠ 0) ∧
    (rc = 0 → (Zyre.start st z).2 = Except.ok ()) ∧
    ((Zyre.join st z group).2 = Except.error Error.JoinFailed ↔ rc ≠ 0) ∧
    (rc = 0 → (Zyre.join st z group).2 = Except.ok ()) ∧
    ((Zyre.leave st z group).2 = Except.error Error.LeaveFailed ↔ rc ≠ 0) ∧
    (rc = 0 → (Zyre.leave st z group).2 = Except.ok ()) := by
  by_cases h0 : rc = 0 <;>
    simp [Zyre.start, Zyre.join, Zyre.leave, zyre_start_native,
      zyre_join_native, zyre_leave_native, takeRc, hrc, cstringNew, hg, h0]

/-- Concrete instantiation of `start_join_leave_status`: an oracle
reporting status `-1` makes `start` fail, and one reporting `0` makes
`join` succeed. -/
theorem start_join_leave_status_witness :
    (Zyre.start ⟨1, [], [], [(1, ⟨none⟩)], [], [], [-1], [], false⟩ ⟨1⟩).2 =
      Except.error Error.StartFailed ∧
    (Zyre.join ⟨1, [], [], [(1, ⟨none⟩)], [], [], [0], [], false⟩
        ⟨1⟩ [103]).2 = Except.ok () := by
  constructor
  · exact (start_join_leave_status
      ⟨1, [], [], [(1, ⟨none⟩)], [], [], [-1], [], false⟩ ⟨1⟩ (-1) [] [103]
      rfl (by decide)).1.mpr (by decide)
  · exact (start_join_leave_status
      ⟨1, [], [], [(1, ⟨none⟩)], [], [], [0], [], false⟩ ⟨1⟩ 0 [] [103]
      rfl (by decide)).2.2.2.1 rfl

/-- C5: `read_event` fails with `ReadInterrupted` exactly when the
blocking poll returns a null event handle; when the poll head is an
actual event the call returns success with an `Event` owning a fresh
snapshot of exactly that event's fields. -/
theorem read_event_interrupt (st : NativeState) (z : Zyre) :
    ((Zyre.read_event st z).2 = Except.error Error.ReadInterrupted ↔
      (zyre_event_new st z.sys).2 = 0) ∧
    (∀ es rest, st.pending = some es :: rest →
      (zyre_event_new st z.sys).2 ≠ 0 ∧
      Zyre.read_event st z =
        ((zyre_event_new st z.sys).1,
         Except.ok ⟨(zyre_event_new st z.sys).2⟩) ∧
      ∃ obj, assocFind (zyre_event_new st z.sys).1.eventHeap
          (zyre_event_new st z.sys).2 = some obj ∧
        obj.etype = es.etype ∧ obj.peerUuid = es.peerUuid ∧
        obj.peerName = es.peerName ∧ obj.peerAddr = es.peerAddr ∧
        obj.group = es.group ∧ (obj.msg.isSome ↔ es.msgFrames.isSome)) := by
  constructor
  · by_cases h : (zyre_event_new st z.sys).2 = 0 <;>
      simp [Zyre.read_event, h]
  · intro es rest hpend
    cases hmf : es.msgFrames with
    | none =>
      refine ⟨?_, ?_, ?_⟩ <;>
        simp [Zyre.read_event, zyre_event_new, hpend, hmf, assocFind,
          Event.new]
    | some fs =>
      refine ⟨?_, ?_, ?_⟩ <;>
        simp [Zyre.read_event, zyre_event_new, hpend, hmf, assocFind,
          Event.new]

/-- Concrete instantiation of `read_event_interrupt`: a pending stream
whose head is an actual shout event yields a successful read. -/
theorem read_event_interrupt_witness :
    ((Zyre.read_event ⟨1, [], [], [(1, ⟨none⟩)], [], [], [],
        [some ⟨[83], [97], [98], [99], some [103], some [[104]]⟩], false⟩
        ⟨1⟩).2 = Except.error Error.ReadInterrupted ↔
      (zyre_event_new ⟨1, [], [], [(1, ⟨none⟩)], [], [], [],
        [some ⟨[83], [97], [98], [99], some [103], some [[104]]⟩], false⟩
        1).2 = 0) ∧
    (zyre_event_new ⟨1, [], [], [(1, ⟨none⟩)], [], [], [],
        [some ⟨[83], [97], [98], [99], some [103], some [[104]]⟩], false⟩
        1).2 ≠ 0 := by
  constructor
  · exact (read_event_interrupt
      ⟨1, [], [], [(1, ⟨none⟩)], [], [], [],
        [some ⟨[83], [97], [98], [99], some [103], some [[104]]⟩], false⟩
      ⟨1⟩).1
  · exact ((read_event_interrupt
      ⟨1, [], [], [(1, ⟨none⟩)], [], [], [],
        [some ⟨[83], [97], [98], [99], some [103], some [[104]]⟩], false⟩
      ⟨1⟩).2 ⟨[83], [97], [98], [99], some [103], some [[104]]⟩ [] rfl).1

/-- C4: extracting the message from an event that holds attached frames
detaches it: the first `message()` call returns a `Message` owning the
live native handle and clears the event's attachment; a second call
changes nothing and returns a `Message` with a null handle, so the two
returned values never share a live handle. -/
theorem event_message_detach (st : NativeState) (e : Event) (ev : EventObj)
    (mp : Nat) (fs : List Bytes)
    (he : assocFind st.eventHeap e.sys = some ev)
    (hm : ev.msg = some mp) (hmp : mp ≠ 0)
    (hlive : assocFind st.msgHeap mp = some fs) :
    (Event.message st e).2.sys = mp ∧
    assocFind (Event.message st e).1.msgHeap mp = some fs ∧
    assocFind (Event.message st e).1.eventHeap e.sys =
      some ⟨ev.etype, ev.peerUuid, ev.peerName, ev.peerAddr, ev.group, none⟩ ∧
    Event.message (Event.message st e).1 e =
      ((Event.message st e).1, (⟨0⟩ : Message)) ∧
    (⟨0⟩ : Message).sys ≠ (Event.message st e).2.sys := by
  have hset := assocFind_assocSet st.eventHeap e.sys
    ⟨ev.etype, ev.peerUuid, ev.peerName, ev.peerAddr, ev.group, none⟩ ev he
  refine ⟨?_, ?_, ?_, ?_, ?_⟩
  · simp [Event.message, zyre_event_get_msg, Message.from_ptr, he, hm]
  · simp [Event.message, zyre_event_get_msg, Message.from_ptr, he, hm, hlive]
  · simp [Event.message, zyre_event_get_msg, Message.from_ptr, he, hm, hset]
  · simp [Event.message, zyre_event_get_msg, Message.from_ptr, he, hm, hset]
  · simp [Event.message, zyre_event_get_msg, Message.from_ptr, he, hm]
    exact fun h2 => hmp h2.symm

/-- Concrete instantiation of `event_message_detach`: event handle `2`
with attached message handle `1`; the first extraction yields handle `1`,
the second a null handle. -/
theorem event_message_detach_witness :
    (Event.message ⟨2, [(1, [[104]])],
        [(2, ⟨[83], [97], [98], [99], some [103], some 1⟩)],
        [], [], [], [], [], false⟩ ⟨2⟩).2.sys = 1 ∧
    Event.message
        (Event.message ⟨2, [(1, [[104]])],
          [(2, ⟨[83], [97], [98], [99], some [103], some 1⟩)],
          [], [], [], [], [], false⟩ ⟨2⟩).1 ⟨2⟩ =
      ((Event.message ⟨2, [(1, [[104]])],
          [(2, ⟨[83], [97], [98], [99], some [103], some 1⟩)],
          [], [], [], [], [], false⟩ ⟨2⟩).1, (⟨0⟩ : Message)) := by
  constructor
  · exact (event_message_detach ⟨2, [(1, [[104]])],
      [(2, ⟨[83], [97], [98], [99], some [103], some 1⟩)],
      [], [], [], [], [], false⟩ ⟨2⟩
      ⟨[83], [97], [98], [99], some [103], some 1⟩ 1 [[104]]
      rfl rfl (by decide) rfl).1
  · exact (event_message_detach ⟨2, [(1, [[104]])],
      [(2, ⟨[83], [97], [98], [99], some [103], some 1⟩)],
      [], [], [], [], [], false⟩ ⟨2⟩
      ⟨[83], [97], [98], [99], some [103], some 1⟩ 1 [[104]]
      rfl rfl (by decide) rfl).2.2.2.1

/-- C10: the read paths decode without a null check.  Popping an empty
(but live) buffer feeds the NULL result of the native pop straight into
`CStr::from_ptr` — undefined behaviour, recorded by the `ub` flag, and no
error or option ever signals the emptiness (the only error `pop` can
produce is the decoding error).  Likewise `group()` on an event without
a group field decodes a NULL pointer.  On a non-empty buffer `pop`
removes the oldest frame and decodes it. -/
theorem pop_group_null_decode :
    (∀ (st : NativeState) (m : Message),
      assocFind st.msgHeap m.sys = some [] →
      Message.pop st m = ({ st with ub := true }, Except.ok [])) ∧
    (∀ (st : NativeState) (m : Message) (e : Error),
      (Message.pop st m).2 = Except.error e → e = Error.FromCStr) ∧
    (∀ (st : NativeState) (m : Message) (f : Bytes) (rest : List Bytes),
      assocFind st.msgHeap m.sys = some (f :: rest) →
      Message.pop st m =
        ({ st with msgHeap := assocSet st.msgHeap m.sys rest },
         cstrToStr (takeUntilNul f))) ∧
    (∀ (st : NativeState) (ev : Event) (obj : EventObj),
      assocFind st.eventHeap ev.sys = some obj → obj.group = none →
      Event.group st ev = ({ st with ub := true }, Except.ok [])) := by
  have hnil : utf8Valid [] = true := rfl
  refine ⟨?_, ?_, ?_, ?_⟩
  · intro st m h
    simp [Message.pop, zmsg_popstr, h, cstrFromPtr, cstrToStr, hnil]
  · intro st m e h
    simp only [Message.pop, cstrToStr] at h
    split at h
    · simp at h
    · exact (Except.error.inj h).symm
  · intro st m f rest h
    simp [Message.pop, zmsg_popstr, h, cstrFromPtr]
  · intro st ev obj h hg
    simp [Event.group, zyre_event_group, h, hg, cstrFromPtr, cstrToStr, hnil]

/-- Concrete instantiation of `pop_group_null_decode`: popping the empty
live message `1` marks undefined behaviour instead of reporting
emptiness, and popping a one-frame buffer returns that frame. -/
theorem pop_group_null_decode_witness :
    Message.pop ⟨1, [(1, [])], [], [], [], [], [], [], false⟩ ⟨1⟩ =
      ({ (⟨1, [(1, [])], [], [], [], [], [], [], false⟩ : NativeState)
         with ub := true }, Except.ok []) ∧
    Message.pop ⟨1, [(1, [[97]])], [], [], [], [], [], [], false⟩ ⟨1⟩ =
      ({ (⟨1, [(1, [[97]])], [], [], [], [], [], [], false⟩ : NativeState)
         with msgHeap := assocSet [(1, [[97]])] 1 [] },
       cstrToStr (takeUntilNul [97])) := by
  constructor
  · exact pop_group_null_decode.1
      ⟨1, [(1, [])], [], [], [], [], [], [], false⟩ ⟨1⟩ rfl
  · exact pop_group_null_decode.2.2.1
      ⟨1, [(1, [[97]])], [], [], [], [], [], [], false⟩ ⟨1⟩ [97] [] rfl

@[simp]
theorem zmsg_destroy_fst_calls (st : NativeState) (p : Nat) :
    (zmsg_destroy st p).1.calls = st.calls := by
  unfold zmsg_destroy
  split
  · rfl
  · split <;> rfl

/-- C7: every operation forwarding caller text (node creation with a
name, `join`, `leave`, `whisper`, `shout`, `push`) first validates it:
a NUL byte yields the text-encoding error with no native forwarding call
logged, and NUL-free text is handed to the native call byte-for-byte. -/
theorem text_validated_before_native_call :
    (∀ (st : NativeState) (name : Bytes), 0 ∈ name →
      Zyre.new st (some name) = (st, Except.error Error.ToCString)) ∧
    (∀ (st : NativeState) (name : Bytes), 0 ∉ name →
      (Zyre.new st (some name)).1.calls =
        CallRec.newCall (some name) :: st.calls ∧
      (Zyre.new st (some name)).2 = Except.ok ⟨st.next + 1⟩) ∧
    (∀ (st : NativeState) (z : Zyre) (group : Bytes), 0 ∈ group →
      Zyre.join st z group = (st, Except.error Error.ToCString)) ∧
    (∀ (st : NativeState) (z : Zyre) (group : Bytes), 0 ∉ group →
      (Zyre.join st z group).1.calls = CallRec.joinCall group :: st.calls) ∧
    (∀ (st : NativeState) (z : Zyre) (group : Bytes), 0 ∈ group →
      Zyre.leave st z group = (st, Except.error Error.ToCString)) ∧
    (∀ (st : NativeState) (z : Zyre) (group : Bytes), 0 ∉ group →
      (Zyre.leave st z group).1.calls = CallRec.leaveCall group :: st.calls) ∧
    (∀ (st : NativeState) (z : Zyre) (peer : Bytes) (m : Message), 0 ∈ peer →
      (Zyre.whisper st z peer m).2 = Except.error Error.ToCString ∧
      (Zyre.whisper st z peer m).1.calls = st.calls) ∧
    (∀ (st : NativeState) (z : Zyre) (peer : Bytes) (m : Message)
        (fs : List Bytes), 0 ∉ peer → assocFind st.msgHeap m.sys = some fs →
      (Zyre.whisper st z peer m).1.calls =
        CallRec.whisperCall peer m.sys :: st.calls) ∧
    (∀ (st : NativeState) (z : Zyre) (group : Bytes) (m : Message),
        0 ∈ group →
      (Zyre.shout st z group m).2 = Except.error Error.ToCString ∧
      (Zyre.shout st z group m).1.calls = st.calls) ∧
    (∀ (st : NativeState) (z : Zyre) (group : Bytes) (m : Message)
        (fs : List Bytes), 0 ∉ group → assocFind st.msgHeap m.sys = some fs →
      (Zyre.shout st z group m).1.calls =
        CallRec.shoutCall group m.sys :: st.calls) ∧
    (∀ (st : NativeState) (m : Message) (frame : Bytes), 0 ∈ frame →
      Message.push st m frame = (st, Except.error Error.ToCString)) ∧
    (∀ (st : NativeState) (m : Message) (frame : Bytes) (fs : List Bytes),
        0 ∉ frame → assocFind st.msgHeap m.sys = some fs →
      Message.push st m frame =
        ({ st with msgHeap := assocSet st.msgHeap m.sys (fs ++ [frame]),
                   calls := CallRec.pushCall m.sys frame :: st.calls },
         Except.ok ())) := by
  refine ⟨?_, ?_, ?_, ?_, ?_, ?_, ?_, ?_, ?_, ?_, ?_, ?_⟩
  · intro st name h
    simp [Zyre.new, cstringNew, h]
  · intro st name h
    simp [Zyre.new, cstringNew, h, zyre_new_native]
  · intro st z group h
    simp [Zyre.join, cstringNew, h]
  · intro st z group h
    have hcs : cstringNew group = Except.ok group := by simp [cstringNew, h]
    simp only [Zyre.join, hcs, zyre_join_native]
    split <;> simp
  · intro st z group h
    simp [Zyre.leave, cstringNew, h]
  · intro st z group h
    have hcs : cstringNew group = Except.ok group := by simp [cstringNew, h]
    simp only [Zyre.leave, hcs, zyre_leave_native]
    split <;> simp
  · intro st z peer m h
    simp [Zyre.whisper, cstringNew, h]
  · intro st z peer m fs h hm
    simp [Zyre.whisper, cstringNew, h, Message.unwrap, zyre_whisper_native,
      hm, zmsg_destroy_zero]
  · intro st z group m h
    simp [Zyre.shout, cstringNew, h]
  · intro st z group m fs h hm
    simp [Zyre.shout, cstringNew, h, Message.unwrap, zyre_shout_native,
      hm, zmsg_destroy_zero]
  · intro st m frame h
    simp [Message.push, cstringNew, h]
  · intro st m frame fs h hm
    simp [Message.push, cstringNew, h, zmsg_pushstr, hm]

/-- Concrete instantiation of `text_validated_before_native_call`: a group
name containing a NUL byte makes `join` fail without any native call,
while a clean one is forwarded verbatim. -/
theorem text_validated_before_native_call_witness :
    Zyre.join ⟨1, [], [], [(1, ⟨none⟩)], [], [], [0], [], false⟩
        ⟨1⟩ [103, 0, 104] =
      (⟨1, [], [], [(1, ⟨none⟩)], [], [], [0], [], false⟩,
       Except.error Error.ToCString) ∧
    (Zyre.join ⟨1, [], [], [(1, ⟨none⟩)], [], [], [0], [], false⟩
        ⟨1⟩ [103]).1.calls = [CallRec.joinCall [103]] := by
  constructor
  · exact text_validated_before_native_call.2.2.1
      ⟨1, [], [], [(1, ⟨none⟩)], [], [], [0], [], false⟩ ⟨1⟩ [103, 0, 104]
      (by decide)
  · exact text_validated_before_native_call.2.2.2.1
      ⟨1, [], [], [(1, ⟨none⟩)], [], [], [0], [], false⟩ ⟨1⟩ [103]
      (by decide)

theorem map_takeUntilNul_id (fs : List Bytes) (h : ∀ f ∈ fs, (0 : Nat) ∉ f) :
    fs.map takeUntilNul = fs := by
  induction fs with
  | nil => rfl
  | cons f rest ih =>
    have hf := takeUntilNul_eq_self f (h f (List.mem_cons_self f rest))
    have hrest := ih (fun g hg => h g (List.mem_cons_of_mem f hg))
    simp [hf, hrest]

theorem fromFramesLoop_ok (frames : List Bytes) :
    ∀ (st : NativeState) (m : Message) (old : List Bytes),
    assocFind st.msgHeap m.sys = some old →
    (∀ f ∈ frames, (0 : Nat) ∉ f) →
    fromFramesLoop m st frames =
      ({ st with msgHeap := assocSet st.msgHeap m.sys (old ++ frames),
                 calls := (frames.map (CallRec.pushCall m.sys)).reverse
                   ++ st.calls },
       Except.ok m) := by
  induction frames with
  | nil =>
    intro st m old h _
    simp [fromFramesLoop, assocSet_eq_self _ _ _ h]
  | cons f rest ih =>
    intro st m old h hv
    have hf : (0 : Nat) ∉ f := hv f (List.mem_cons_self f rest)
    have hrest : ∀ g ∈ rest, (0 : Nat) ∉ g :=
      fun g hg => hv g (List.mem_cons_of_mem f hg)
    have hcs : cstringNew f = Except.ok f := by simp [cstringNew, hf]
    have hpush : zmsg_pushstr st m.sys f =
        { st with msgHeap := assocSet st.msgHeap m.sys (old ++ [f]),
                  calls := CallRec.pushCall m.sys f :: st.calls } := by
      simp [zmsg_pushstr, h]
    have hfind : assocFind
        (assocSet st.msgHeap m.sys (old ++ [f])) m.sys = some (old ++ [f]) :=
      assocFind_assocSet st.msgHeap m.sys (old ++ [f]) old h
    simp only [fromFramesLoop, Message.push, hcs, hpush]
    rw [ih _ m (old ++ [f]) (by simpa using hfind) hrest]
    simp [assocSet_assocSet, List.append_assoc]

theorem from_frames_spec (st : NativeState) (frames : List Bytes)
    (h : ∀ f ∈ frames, (0 : Nat) ∉ f) :
    Message.from_frames st frames =
      ({ st with next := st.next + 1,
                 msgHeap := (st.next + 1, frames) :: st.msgHeap,
                 calls := (frames.map (CallRec.pushCall (st.next + 1))).reverse
                   ++ st.calls },
       Except.ok ⟨st.next + 1⟩) := by
  unfold Message.from_frames Message.new zmsg_new
  rw [fromFramesLoop_ok frames _ _ [] (by simp [assocFind]) h]
  simp [assocSet]

theorem collectLoop_ok (fs : List Bytes) :
    ∀ (st : NativeState) (p : Nat),
    assocFind st.msgHeap p = some fs →
    (∀ f ∈ fs, utf8Valid (takeUntilNul f) = true) →
    collectLoop p st fs.length =
      ({ st with msgHeap := assocSet st.msgHeap p [] },
       Except.ok (fs.map takeUntilNul)) := by
  induction fs with
  | nil =>
    intro st p h _
    simp [collectLoop, assocSet_eq_self _ _ _ h]
  | cons f rest ih =>
    intro st p h hv
    have hf := hv f (List.mem_cons_self f rest)
    have hrest : ∀ g ∈ rest, utf8Valid (takeUntilNul g) = true :=
      fun g hg => hv g (List.mem_cons_of_mem f hg)
    have hpop : zmsg_popstr st p =
        ({ st with msgHeap := assocSet st.msgHeap p rest }, some f) := by
      simp [zmsg_popstr, h]
    have hdec : cstrToStr (takeUntilNul f) = Except.ok (takeUntilNul f) := by
      simp [cstrToStr, hf]
    have hfind : assocFind (assocSet st.msgHeap p rest) p = some rest :=
      assocFind_assocSet st.msgHeap p rest (f :: rest) h
    simp only [List.length_cons, collectLoop, hpop, cstrFromPtr, hdec]
    rw [ih _ p hfind hrest]
    simp [assocSet_assocSet]

theorem collectLoop_err (pre : List Bytes) :
    ∀ (st : NativeState) (p : Nat) (bad : Bytes) (post : List Bytes),
    assocFind st.msgHeap p = some (pre ++ bad :: post) →
    (∀ f ∈ pre, utf8Valid (takeUntilNul f) = true) →
    utf8Valid (takeUntilNul bad) = false →
    collectLoop p st (pre ++ bad :: post).length =
      ({ st with msgHeap := assocSet st.msgHeap p post },
       Except.error Error.FromCStr) := by
  induction pre with
  | nil =>
    intro st p bad post h _ hbad
    have hpop : zmsg_popstr st p =
        ({ st with msgHeap := assocSet st.msgHeap p post }, some bad) := by
      simp [zmsg_popstr, h]
    simp only [List.nil_append, List.length_cons, collectLoop, hpop,
      cstrFromPtr]
    simp [cstrToStr, hbad]
  | cons a pre2 ih =>
    intro st p bad post h hv hbad
    have ha := hv a (List.mem_cons_self a pre2)
    have hpre : ∀ g ∈ pre2, utf8Valid (takeUntilNul g) = true :=
      fun g hg => hv g (List.mem_cons_of_mem a hg)
    have h2 : assocFind st.msgHeap p = some (a :: (pre2 ++ bad :: post)) := by
      simpa using h
    have hpop : zmsg_popstr st p =
        ({ st with msgHeap := assocSet st.msgHeap p (pre2 ++ bad :: post) },
         some a) := by
      simp [zmsg_popstr, h2]
    have hdec : cstrToStr (takeUntilNul a) = Except.ok (takeUntilNul a) := by
      simp [cstrToStr, ha]
    have hfind : assocFind
        (assocSet st.msgHeap p (pre2 ++ bad :: post)) p =
          some (pre2 ++ bad :: post) :=
      assocFind_assocSet st.msgHeap p (pre2 ++ bad :: post)
        (a :: (pre2 ++ bad :: post)) h2
    simp only [List.cons_append, List.length_cons, collectLoop, hpop,
      cstrFromPtr, hdec, List.append_eq]
    rw [ih { st with msgHeap := assocSet st.msgHeap p (pre2 ++ bad :: post) }
      p bad post hfind hpre hbad]
    simp [assocSet_assocSet]

theorem collect_spec (st : NativeState) (m : Message) (fs : List Bytes)
    (h : assocFind st.msgHeap m.sys = some fs)
    (hv : ∀ f ∈ fs, utf8Valid (takeUntilNul f) = true) :
    Message.collect st m =
      ({ st with msgHeap := assocSet st.msgHeap m.sys [] },
       Except.ok (fs.map takeUntilNul)) := by
  unfold Message.collect
  have hsize : zmsg_size st m.sys = fs.length := by simp [zmsg_size, h]
  rw [hsize, collectLoop_ok fs st m.sys h hv]

theorem collect_err_spec (st : NativeState) (m : Message) (pre : List Bytes)
    (bad : Bytes) (post : List Bytes)
    (h : assocFind st.msgHeap m.sys = some (pre ++ bad :: post))
    (hv : ∀ f ∈ pre, utf8Valid (takeUntilNul f) = true)
    (hbad : utf8Valid (takeUntilNul bad) = false) :
    Message.collect st m =
      ({ st with msgHeap := assocSet st.msgHeap m.sys post },
       Except.error Error.FromCStr) := by
  unfold Message.collect
  have hsize : zmsg_size st m.sys = (pre ++ bad :: post).length := by
    simp [zmsg_size, h]
  rw [hsize, collectLoop_err pre st m.sys bad post h hv hbad]

/-- C1: for frames free of NUL bytes (and valid text, as Rust's `&str`
type guarantees), `from_frames` pushes them in order and a subsequent
`collect` returns exactly the same frames in the same order with `size`
equal to `0` afterwards; `pop` always removes and returns the oldest
remaining frame. -/
theorem from_frames_collect_roundtrip :
    (∀ (st : NativeState) (frames : List Bytes),
      (∀ f ∈ frames, (0 : Nat) ∉ f ∧ utf8Valid f = true) →
      ∃ (m : Message) (st1 st2 : NativeState),
        Message.from_frames st frames = (st1, Except.ok m) ∧
        Message.collect st1 m = (st2, Except.ok frames) ∧
        Message.size st2 m = 0) ∧
    (∀ (st : NativeState) (m : Message) (f : Bytes) (rest : List Bytes),
      assocFind st.msgHeap m.sys = some (f :: rest) →
      (0 : Nat) ∉ f → utf8Valid f = true →
      Message.pop st m =
        ({ st with msgHeap := assocSet st.msgHeap m.sys rest },
         Except.ok f)) := by
  constructor
  · intro st frames hval
    have hn : ∀ f ∈ frames, (0 : Nat) ∉ f := fun f hf => (hval f hf).1
    have hv : ∀ f ∈ frames, utf8Valid (takeUntilNul f) = true := by
      intro f hf
      rw [takeUntilNul_eq_self f ((hval f hf).1)]
      exact (hval f hf).2
    refine ⟨⟨st.next + 1⟩,
      { st with next := st.next + 1,
                msgHeap := (st.next + 1, frames) :: st.msgHeap,
                calls := (frames.map (CallRec.pushCall (st.next + 1))).reverse
                  ++ st.calls },
      { st with next := st.next + 1,
                msgHeap := (st.next + 1, ([] : List Bytes)) :: st.msgHeap,
                calls := (frames.map (CallRec.pushCall (st.next + 1))).reverse
                  ++ st.calls },
      from_frames_spec st frames hn, ?_, ?_⟩
    · rw [collect_spec _ ⟨st.next + 1⟩ frames (by simp [assocFind]) hv]
      simp [assocSet, map_takeUntilNul_id frames hn]
    · simp [Message.size, zmsg_size, assocFind]
  · intro st m f rest h hf hvf
    have hdec : cstrToStr (takeUntilNul f) = Except.ok f := by
      rw [takeUntilNul_eq_self f hf]
      simp [cstrToStr, hvf]
    simp [Message.pop, zmsg_popstr, h, cstrFromPtr, hdec,
      takeUntilNul_eq_self f hf, cstrToStr, hvf]

/-- Concrete instantiation of `from_frames_collect_roundtrip`:
`from_frames(["a","b","c"])` then `collect()` yields `["a","b","c"]` with
`size() = 0` afterwards. -/
theorem from_frames_collect_roundtrip_witness :
    (∀ f ∈ [[97], [98], [99]], (0 : Nat) ∉ f ∧ utf8Valid f = true) ∧
    (∃ (m : Message) (st1 st2 : NativeState),
      Message.from_frames ⟨0, [], [], [], [], [], [], [], false⟩
        [[97], [98], [99]] = (st1, Except.ok m) ∧
      Message.collect st1 m = (st2, Except.ok [[97], [98], [99]]) ∧
      Message.size st2 m = 0) :=
  ⟨by decide,
   from_frames_collect_roundtrip.1 ⟨0, [], [], [], [], [], [], [], false⟩
     [[97], [98], [99]] (by decide)⟩

/-- C8: `collect` is bounded by the `size()` snapshot taken at entry: when
every frame decodes, exactly that many frames are popped (the buffer ends
empty) and they are returned in order; when a frame fails to decode,
`collect` returns the decoding error and the buffer is left partially
drained — the frames popped before (and including) the failing one are
not restored. -/
theorem collect_snapshot_partial_drain :
    (∀ (st : NativeState) (m : Message) (fs : List Bytes),
      assocFind st.msgHeap m.sys = some fs →
      (∀ f ∈ fs, utf8Valid (takeUntilNul f) = true) →
      Message.collect st m =
        ({ st with msgHeap := assocSet st.msgHeap m.sys [] },
         Except.ok (fs.map takeUntilNul))) ∧
    (∀ (st : NativeState) (m : Message) (pre : List Bytes) (bad : Bytes)
        (post : List Bytes),
      assocFind st.msgHeap m.sys = some (pre ++ bad :: post) →
      (∀ f ∈ pre, utf8Valid (takeUntilNul f) = true) →
      utf8Valid (takeUntilNul bad) = false →
      Message.collect st m =
        ({ st with msgHeap := assocSet st.msgHeap m.sys post },
         Except.error Error.FromCStr)) :=
  ⟨collect_spec, collect_err_spec⟩

/-- Concrete instantiation of `collect_snapshot_partial_drain`: a buffer
`["a", 0xFF, "b"]` whose middle frame is invalid text makes `collect`
fail with the decoding error, leaving only `["b"]` in the buffer. -/
theorem collect_snapshot_partial_drain_witness :
    Message.collect ⟨1, [(1, [[97], [255], [98]])], [], [], [], [], [], [],
        false⟩ ⟨1⟩ =
      ({ (⟨1, [(1, [[97], [255], [98]])], [], [], [], [], [], [],
          false⟩ : NativeState) with
         msgHeap := assocSet [(1, [[97], [255], [98]])] 1 [[98]] },
       Except.error Error.FromCStr) :=
  collect_snapshot_partial_drain.2
    ⟨1, [(1, [[97], [255], [98]])], [], [], [], [], [], [], false⟩ ⟨1⟩
    [[97]] [255] [[98]] (by decide) (by decide) (by decide)

end RustZyre
